import Mathlib

/-!
Verification of the PyBrowser repository (src/main.py): a single-file
desktop browser shell.  The two pure functions (`normalize_url`,
`resolve_dns`) and the navigation-controller slots of class `PyBrowser`
are embedded shallowly.  Python strings are modelled as `List Char`;
external collaborators (the stdlib URL parser `urllib.parse.urlparse`
and the system resolver `socket.getaddrinfo`) are modelled as oracle
functions whose outcomes (`Except`: success value or raised exception)
are parameters of the embedded controller.
-/

namespace PyB

/-- Python strings are modelled as lists of characters. -/
abbrev Str := List Char

/-- Python `str.strip()`: remove leading and trailing whitespace. -/
def strip (s : Str) : Str :=
  ((s.dropWhile Char.isWhitespace).reverse.dropWhile Char.isWhitespace).reverse

/-- The fixed fallback URL returned by `normalize_url` for empty input
(source line 53: `return "http://example.com"  # safe default`). -/
def defaultUrl : Str := "http://example.com".data

/-- The fixed home URL (source lines 125 and 130: `"https://example.com"`). -/
def homeUrl : Str := "https://example.com".data

/-- The scheme separator searched for by `normalize_url` (`"://" not in text`). -/
def schemeSep : Str := "://".data

/-- Embedding of `normalize_url` (src/main.py lines 47-57):
strip, substitute the safe default for empty input, prepend `http://`
when no `"://"` occurs anywhere in the text, else pass through. -/
def normalize_url (text : Str) : Str :=
  if strip text = [] then defaultUrl
  else if ¬ (schemeSep <:+: strip text) then "http://".data ++ strip text
  else strip text

/-- One record returned by `socket.getaddrinfo`: a 5-tuple
`(family, type, proto, canonname, sockaddr)`; the code only reads
`sockaddr[0]`, the address string, so `sockaddr` is modelled as the
address string paired with the remaining numeric components. -/
structure AddrInfo where
  family : Nat
  stype : Nat
  proto : Nat
  canonname : Str
  sockaddr : Str × List Nat

/-- The address portion `sockaddr[0]` of a getaddrinfo record. -/
def addrOf (i : AddrInfo) : Str := i.sockaddr.1

/-- Embedding of `resolve_dns` (src/main.py lines 60-73).  The outcome of
the `socket.getaddrinfo` call is the argument: `Except.error` is a raised
exception (caught by the `except Exception: return []`), `Except.ok` is
the returned record list, over which the loop accumulates first-seen
unique addresses. -/
def resolve_dns (res : Except Str (List AddrInfo)) : List Str :=
  match res with
  | Except.error _ => []
  | Except.ok infos =>
      infos.foldl
        (fun ips info =>
          let ip := info.sockaddr.1
          if ip ∈ ips then ips else ips ++ [ip])
        []

/-- Specification-side description of deduplication keeping the first
occurrence of each element in order (spec 4.2: "deduplicates while
preserving first-seen order"); used to compare with `resolve_dns`. -/
def dedupFirstSeenSpec : List Str → List Str
  | [] => []
  | a :: l => a :: dedupFirstSeenSpec (l.filter (fun x => x ≠ a))
termination_by l => l.length
decreasing_by
  simp only [List.length_cons]
  exact Nat.lt_succ_of_le (List.length_filter_le _ _)

/-- The loop body of `resolve_dns` as a named function of the
accumulator and one address (used to state lemmas about the fold). -/
def addStep (ips : List Str) (ip : Str) : List Str :=
  if ip ∈ ips then ips else ips ++ [ip]

/-- Observable UI state of the `PyBrowser` widget: the address-field
text, the status-label text, the window title, and the log of URLs the
embedded view was asked to load (`self.view.load(...)` calls). -/
structure BrowserState where
  address : Str
  status : Str
  title : Str
  loads : List Str

/-- Outcome of `urlparse(url_text).hostname`: an exception, or an
optional hostname (`None` for URLs without one). -/
abbrev ParseOracle := Str → Except Str (Option Str)

/-- Outcome of `socket.getaddrinfo(hostname, None)` for each hostname. -/
abbrev DnsOracle := Str → Except Str (List AddrInfo)

/-- Embedding of slot `PyBrowser.load_from_address` (src/main.py lines
142-158): normalize the address text, best-effort DNS status update
(hostname extraction guarded by try/except), then ask the view to load
the normalized URL. -/
def load_from_address (parse : ParseOracle) (dns : DnsOracle)
    (st : BrowserState) : BrowserState :=
  let url_text := normalize_url st.address
  let st1 :=
    match parse url_text with
    | Except.ok hopt =>
        let hostname := hopt.getD []
        let ips := resolve_dns (dns hostname)
        if ips ≠ [] then
          { st with status :=
              "DNS: ".data ++ hostname ++ " → ".data
                ++ List.intercalate ", ".data ips }
        else
          { st with status :=
              "DNS: ".data ++ hostname ++ " → (no result)".data }
    | Except.error e => { st with status := "DNS error: ".data ++ e }
  { st1 with loads := st1.loads ++ [url_text] }

/-- Embedding of slot `PyBrowser.go_home` (src/main.py lines 129-131):
set the address field to the home URL, then `load_from_address`. -/
def go_home (parse : ParseOracle) (dns : DnsOracle)
    (st : BrowserState) : BrowserState :=
  load_from_address parse dns { st with address := homeUrl }

/-- Embedding of slot `PyBrowser.on_url_changed` (src/main.py lines
133-135): overwrite the address-field text with the string form of the
event URL. -/
def on_url_changed (st : BrowserState) (qurl : Str) : BrowserState :=
  { st with address := qurl }

/-- Embedding of slot `PyBrowser.on_load_progress` (src/main.py lines
137-140): show the percentage in the window title, reset at 100. -/
def on_load_progress (st : BrowserState) (percent : Nat) : BrowserState :=
  let st1 := { st with title :=
    "PyBrowser   ".data ++ (toString percent).data ++ "%".data }
  if percent = 100 then { st1 with title := "PyBrowser".data } else st1

/-- Embedding of the tail of `PyBrowser.__init__` (src/main.py lines
102, 124-126): status label starts as `"Ready"`, the address field is
set to the home URL, and `load_from_address` runs once. -/
def initBrowser (parse : ParseOracle) (dns : DnsOracle) : BrowserState :=
  load_from_address parse dns
    { address := homeUrl
      status := "Ready".data
      title := "PyBrowser".data
      loads := [] }

/-- Concrete URL-parse oracle: every URL parses to hostname
`example.com` (what `urlparse` returns on `http://example.com`). -/
def parseEx : ParseOracle := fun _ => Except.ok (some "example.com".data)

/-- Concrete resolver oracle: one A record with address `1.2.3.4`. -/
def dnsEx : DnsOracle := fun _ => Except.ok [⟨2, 1, 6, [], ("1.2.3.4".data, [0])⟩]

/-- Concrete URL-parse oracle that raises on every input. -/
def parseErrEx : ParseOracle := fun _ => Except.error "boom".data

/-- Concrete initial widget state with `example.com` typed in the
address bar. -/
def st0 : BrowserState :=
  { address := "example.com".data
    status := "Ready".data
    title := "PyBrowser".data
    loads := [] }

/-! ### Lemmas about `strip` -/

theorem dropWhile_idem (p : Char → Bool) (l : List Char) :
    (l.dropWhile p).dropWhile p = l.dropWhile p := by
  induction l with
  | nil => rfl
  | cons a l ih =>
      by_cases h : p a
      · simp [List.dropWhile_cons, h, ih]
      · simp [List.dropWhile_cons, h]

theorem head_false_of_dropWhile_self (p : Char → Bool) (a : Char) (l : List Char)
    (h : (a :: l).dropWhile p = a :: l) : p a = false := by
  by_contra hp
  rw [Bool.not_eq_false] at hp
  rw [List.dropWhile_cons, if_pos hp] at h
  have hle : (l.dropWhile p).length ≤ l.length :=
    (List.dropWhile_suffix p).sublist.length_le
  rw [h] at hle
  simp at hle

theorem strip_prefix_dropWhile (s : Str) :
    strip s <+: s.dropWhile Char.isWhitespace := by
  have h1 : (s.dropWhile Char.isWhitespace).reverse.dropWhile Char.isWhitespace
      <:+ (s.dropWhile Char.isWhitespace).reverse :=
    List.dropWhile_suffix Char.isWhitespace
  exact List.reverse_suffix.mp (by simpa [strip] using h1)

theorem strip_dropWhile_self (s : Str) :
    (strip s).dropWhile Char.isWhitespace = strip s := by
  cases hR : strip s with
  | nil => rfl
  | cons a t =>
      have hpre := strip_prefix_dropWhile s
      rw [hR] at hpre
      obtain ⟨u, hu⟩ := hpre
      have hfix : (s.dropWhile Char.isWhitespace).dropWhile Char.isWhitespace
          = s.dropWhile Char.isWhitespace := dropWhile_idem _ _
      rw [← hu] at hfix
      have ha : Char.isWhitespace a = false := by
        have : (a :: (t ++ u)).dropWhile Char.isWhitespace = a :: (t ++ u) := by
          simpa using hfix
        exact head_false_of_dropWhile_self _ _ _ this
      simp [List.dropWhile_cons, ha]

theorem strip_reverse_dropWhile (s : Str) :
    (strip s).reverse.dropWhile Char.isWhitespace = (strip s).reverse := by
  simp [strip, List.reverse_reverse, dropWhile_idem]

theorem strip_idem (s : Str) : strip (strip s) = strip s := by
  show (((strip s).dropWhile Char.isWhitespace).reverse.dropWhile
      Char.isWhitespace).reverse = strip s
  rw [strip_dropWhile_self, strip_reverse_dropWhile, List.reverse_reverse]

theorem strip_http_append (s : Str) (h : strip s ≠ []) :
    strip ("http://".data ++ strip s) = "http://".data ++ strip s := by
  have hleft : ("http://".data ++ strip s).dropWhile Char.isWhitespace
      = "http://".data ++ strip s := by
    show (('h' :: ("ttp://".data ++ strip s)).dropWhile Char.isWhitespace) = _
    rw [List.dropWhile_cons, if_neg (by decide)]
    rfl
  have hrev : ("http://".data ++ strip s).reverse.dropWhile Char.isWhitespace
      = ("http://".data ++ strip s).reverse := by
    rw [List.reverse_append]
    cases hR : (strip s).reverse with
    | nil => exact absurd (by simpa using hR) h
    | cons b v =>
        have hb : Char.isWhitespace b = false := by
          have hfix := strip_reverse_dropWhile s
          rw [hR] at hfix
          exact head_false_of_dropWhile_self _ _ _ hfix
        simp [List.dropWhile_cons, hb]
  show ((("http://".data ++ strip s).dropWhile Char.isWhitespace).reverse.dropWhile
      Char.isWhitespace).reverse = _
  rw [hleft, hrev, List.reverse_reverse]

/-! ### Lemmas about `normalize_url` -/

theorem infix_append_right (a b c : List Char) (h : a <:+: b) : a <:+: b ++ c := by
  obtain ⟨s, t, rfl⟩ := h
  exact ⟨s, t ++ c, by simp⟩

theorem normalize_scheme_aux (s : Str) : schemeSep <:+: normalize_url s := by
  unfold normalize_url
  by_cases h0 : strip s = []
  · rw [if_pos h0]; decide
  · by_cases h1 : schemeSep <:+: strip s
    · rw [if_neg h0, if_neg (not_not_intro h1)]; exact h1
    · rw [if_neg h0, if_pos h1]
      exact infix_append_right _ _ _ (by decide)

theorem normalize_ne_nil_aux (s : Str) : normalize_url s ≠ [] := by
  intro hn
  have h := normalize_scheme_aux s
  rw [hn] at h
  have := h.length_le
  simp [schemeSep] at this

theorem strip_normalize_aux (s : Str) : strip (normalize_url s) = normalize_url s := by
  unfold normalize_url
  by_cases h0 : strip s = []
  · rw [if_pos h0]; decide
  · by_cases h1 : schemeSep <:+: strip s
    · rw [if_neg h0, if_neg (not_not_intro h1)]; exact strip_idem s
    · rw [if_neg h0, if_pos h1]; exact strip_http_append s h0

theorem normalize_fixed (r : Str) (hs : strip r = r) (hn : r ≠ [])
    (hi : schemeSep <:+: r) : normalize_url r = r := by
  unfold normalize_url
  rw [hs, if_neg hn, if_neg (not_not_intro hi)]

/-! ### Claim theorems for the URL normalizer -/

/-- Claim C4: `normalize_url` returns the fixed fallback URL on
empty-after-trim input, prepends `http://` when the trimmed text has no
`"://"`, and otherwise passes the trimmed text through; in particular
`normalize_url "" = normalize_url "   " = defaultUrl` and
`normalize_url "example.com" = "http://example.com"`. -/
theorem claim_C4_normalize_cases (s : Str) :
    (strip s = [] → normalize_url s = defaultUrl) ∧
    (strip s ≠ [] → ¬ (schemeSep <:+: strip s) →
      normalize_url s = "http://".data ++ strip s) ∧
    (schemeSep <:+: strip s → normalize_url s = strip s) ∧
    normalize_url "".data = defaultUrl ∧
    normalize_url "   ".data = defaultUrl ∧
    normalize_url "example.com".data = "http://example.com".data := by
  refine ⟨?_, ?_, ?_, by decide, by decide, by decide⟩
  · intro h0; unfold normalize_url; rw [if_pos h0]
  · intro h0 h1; unfold normalize_url; rw [if_neg h0, if_pos h1]
  · intro h1
    have h0 : strip s ≠ [] := by
      intro h; rw [h] at h1
      have := h1.length_le
      simp [schemeSep] at this
    unfold normalize_url
    rw [if_neg h0, if_neg (not_not_intro h1)]

/-- Witness for C4 at a concrete input. -/
theorem claim_C4_witness :
    strip "example.com".data ≠ [] ∧
      ¬ (schemeSep <:+: strip "example.com".data) ∧
      normalize_url "example.com".data = "http://".data ++ strip "example.com".data :=
  ⟨by decide, by decide,
    (claim_C4_normalize_cases "example.com".data).2.1 (by decide) (by decide)⟩

/-- Claim C5: for every input string, `normalize_url` returns a
non-empty string containing the scheme separator `"://"`. -/
theorem claim_C5_normalize_scheme (s : Str) :
    normalize_url s ≠ [] ∧ schemeSep <:+: normalize_url s :=
  ⟨normalize_ne_nil_aux s, normalize_scheme_aux s⟩

/-- Claim C6: `normalize_url` is idempotent, and in particular leaves
`"https://example.com"` unchanged. -/
theorem claim_C6_normalize_idem (s : Str) :
    normalize_url (normalize_url s) = normalize_url s ∧
    normalize_url "https://example.com".data = "https://example.com".data :=
  ⟨normalize_fixed _ (strip_normalize_aux s) (normalize_ne_nil_aux s)
      (normalize_scheme_aux s),
    by decide⟩

/-! ### Lemmas about `resolve_dns` -/

theorem dKF_mem (l : List Str) : ∀ x : Str, x ∈ dedupFirstSeenSpec l ↔ x ∈ l := by
  induction l using dedupFirstSeenSpec.induct with
  | case1 => intro x; rw [dedupFirstSeenSpec]
  | case2 a l ih =>
      intro x
      rw [dedupFirstSeenSpec]
      simp only [List.mem_cons, ih, List.mem_filter]
      by_cases hx : x = a
      · simp [hx]
      · simp [hx]

theorem dKF_nodup (l : List Str) : (dedupFirstSeenSpec l).Nodup := by
  induction l using dedupFirstSeenSpec.induct with
  | case1 => simp [dedupFirstSeenSpec]
  | case2 a l ih =>
      rw [dedupFirstSeenSpec]
      refine List.nodup_cons.mpr ⟨?_, ih⟩
      intro hmem
      have h := (dKF_mem _ a).mp hmem
      rw [List.mem_filter] at h
      simp at h

theorem dKF_sublist (l : List Str) : (dedupFirstSeenSpec l).Sublist l := by
  induction l using dedupFirstSeenSpec.induct with
  | case1 => simp [dedupFirstSeenSpec]
  | case2 a l ih =>
      rw [dedupFirstSeenSpec]
      exact List.Sublist.cons₂ a (ih.trans (List.filter_sublist l))

theorem foldl_addStep (l : List Str) : ∀ acc : List Str,
    List.foldl addStep acc l
      = acc ++ dedupFirstSeenSpec (l.filter (fun x => x ∉ acc)) := by
  induction l with
  | nil => intro acc; simp [dedupFirstSeenSpec]
  | cons a l ih =>
      intro acc
      rw [List.foldl_cons, List.filter_cons]
      by_cases h : a ∈ acc
      · have hstep : addStep acc a = acc := by simp [addStep, h]
        have hd : (decide (a ∉ acc)) = false := by simp [h]
        rw [hstep, ih, hd]
        simp
      · have hstep : addStep acc a = acc ++ [a] := by simp [addStep, h]
        have hd : (decide (a ∉ acc)) = true := by simp [h]
        rw [hstep, ih, hd, if_pos rfl, dedupFirstSeenSpec, List.filter_filter]
        have hpred : ∀ x ∈ l, (decide (x ∉ acc ++ [a]))
            = ((decide (x ≠ a)) && (decide (x ∉ acc))) := by
          intro x _
          by_cases h1 : x = a <;> by_cases h2 : x ∈ acc <;>
            simp [List.mem_append, h1, h2]
        rw [List.filter_congr hpred]
        simp

theorem resolve_dns_ok_eq_aux (infos : List AddrInfo) :
    resolve_dns (Except.ok infos) = dedupFirstSeenSpec (infos.map addrOf) := by
  have h1 : resolve_dns (Except.ok infos)
      = List.foldl addStep [] (infos.map addrOf) := by
    rw [List.foldl_map]
    rfl
  rw [h1, foldl_addStep]
  simp

/-! ### Claim theorems for the resolver -/

/-- Claim C2: `resolve_dns` never raises — it is a total function of the
resolver-call outcome, and every raised exception (the `Except.error`
case, covering unknown host, unreachable network, malformed hostname) is
mapped to the empty list. -/
theorem claim_C2_resolve_error (e : Str) : resolve_dns (Except.error e) = [] := rfl

/-- Claim C3: on a successful resolver call, `resolve_dns` returns
exactly the addresses of the records, deduplicated keeping the first
occurrence of each in order: it equals the spec-side first-seen dedup of
the address list, has no duplicates, has the same members as the address
list, and is a sublist of it (relative order preserved). -/
theorem claim_C3_resolve_dedup (infos : List AddrInfo) :
    resolve_dns (Except.ok infos) = dedupFirstSeenSpec (infos.map addrOf) ∧
    (resolve_dns (Except.ok infos)).Nodup ∧
    (∀ x, x ∈ resolve_dns (Except.ok infos) ↔ x ∈ infos.map addrOf) ∧
    (resolve_dns (Except.ok infos)).Sublist (infos.map addrOf) := by
  have he := resolve_dns_ok_eq_aux infos
  refine ⟨he, ?_, ?_, ?_⟩
  · rw [he]; exact dKF_nodup _
  · intro x; rw [he]; exact dKF_mem _ x
  · rw [he]; exact dKF_sublist _

/-! ### Lemmas about the navigation controller -/

theorem load_loads_aux (parse : ParseOracle) (dns : DnsOracle) (st : BrowserState) :
    (load_from_address parse dns st).loads
      = st.loads ++ [normalize_url st.address] := by
  simp only [load_from_address]
  cases hp : parse (normalize_url st.address) with
  | ok hopt => by_cases hne : resolve_dns (dns (hopt.getD [])) = [] <;> simp [hne]
  | error e => simp

theorem load_address_aux (parse : ParseOracle) (dns : DnsOracle) (st : BrowserState) :
    (load_from_address parse dns st).address = st.address := by
  simp only [load_from_address]
  cases hp : parse (normalize_url st.address) with
  | ok hopt => by_cases hne : resolve_dns (dns (hopt.getD [])) = [] <;> simp [hne]
  | error e => simp

theorem load_status_dns_aux (parse : ParseOracle) (dns : DnsOracle) (st : BrowserState) :
    "DNS".data <+: (load_from_address parse dns st).status := by
  simp only [load_from_address]
  cases hp : parse (normalize_url st.address) with
  | ok hopt =>
      by_cases hne : resolve_dns (dns (hopt.getD [])) = [] <;> simp [hne]
  | error e =>
      simp only []
      exact ⟨_, rfl⟩

theorem load_status_ok_aux (parse : ParseOracle) (dns : DnsOracle)
    (st : BrowserState) (h : Str)
    (hp : parse (normalize_url st.address) = Except.ok (some h)) :
    (resolve_dns (dns h) ≠ [] →
      (load_from_address parse dns st).status =
        "DNS: ".data ++ h ++ " → ".data
          ++ List.intercalate ", ".data (resolve_dns (dns h))) ∧
    (resolve_dns (dns h) = [] →
      (load_from_address parse dns st).status =
        "DNS: ".data ++ h ++ " → (no result)".data) := by
  simp only [load_from_address]
  rw [hp]
  constructor
  · intro hne; simp [hne]
  · intro he; simp [he]

theorem load_status_error_aux (parse : ParseOracle) (dns : DnsOracle)
    (st : BrowserState) (e : Str)
    (hp : parse (normalize_url st.address) = Except.error e) :
    (load_from_address parse dns st).status = "DNS error: ".data ++ e := by
  simp only [load_from_address]
  rw [hp]

/-! ### Claim theorems for the navigation controller -/

/-- Counterexample for claim C1 as stated: with `example.com` in the
address bar, a parse oracle extracting hostname `example.com` and a
resolver returning `1.2.3.4`, the status text is the actual code's
`"DNS: example.com → 1.2.3.4"`, which is neither of the claimed strings
`"<hostname> -> <ips>"` / `"<hostname> -> (no result)"` and does not
even contain the claimed separator `" -> "`. -/
theorem claim_C1_counterexample :
    (load_from_address parseEx dnsEx st0).status
        ≠ "example.com -> 1.2.3.4".data ∧
    (load_from_address parseEx dnsEx st0).status
        ≠ "example.com -> (no result)".data ∧
    ¬ (" -> ".data <:+: (load_from_address parseEx dnsEx st0).status) ∧
    (load_from_address parseEx dnsEx st0).status
        = "DNS: example.com → 1.2.3.4".data ∧
    (load_from_address parseEx dnsEx st0).loads
        = ["http://example.com".data] := by
  refine ⟨by decide, by decide, by decide, by decide, by decide⟩

/-- Claim C1 (amended): on an explicit navigation trigger whose
normalized address text parses to hostname `h`, the status is set to
`"DNS: <hostname> → <ip1>, <ip2>, ..."` when resolution is non-empty,
or `"DNS: <hostname> → (no result)"` when it is empty, and the embedded
view is asked to load the normalized URL. -/
theorem claim_C1_load_status (parse : ParseOracle) (dns : DnsOracle)
    (st : BrowserState) (h : Str)
    (hp : parse (normalize_url st.address) = Except.ok (some h)) :
    (resolve_dns (dns h) ≠ [] →
      (load_from_address parse dns st).status =
        "DNS: ".data ++ h ++ " → ".data
          ++ List.intercalate ", ".data (resolve_dns (dns h))) ∧
    (resolve_dns (dns h) = [] →
      (load_from_address parse dns st).status =
        "DNS: ".data ++ h ++ " → (no result)".data) ∧
    (load_from_address parse dns st).loads
      = st.loads ++ [normalize_url st.address] :=
  ⟨(load_status_ok_aux parse dns st h hp).1,
   (load_status_ok_aux parse dns st h hp).2,
   load_loads_aux parse dns st⟩

/-- Witness for the amended C1 at concrete oracles: typing
`example.com` loads `http://example.com` and shows the DNS status. -/
theorem claim_C1_witness :
    parseEx (normalize_url st0.address) = Except.ok (some "example.com".data) ∧
    (load_from_address parseEx dnsEx st0).loads
      = st0.loads ++ [normalize_url st0.address] ∧
    (load_from_address parseEx dnsEx st0).status
      = "DNS: ".data ++ "example.com".data ++ " → ".data
          ++ List.intercalate ", ".data (resolve_dns (dnsEx "example.com".data)) := by
  have h := claim_C1_load_status parseEx dnsEx st0 "example.com".data rfl
  exact ⟨rfl, h.2.2, h.1 (by decide)⟩

/-- Claim C7: a URL-parse error during hostname extraction is caught
and rendered as a status message containing the underlying error text,
and the embedded view is asked to load the normalized URL on every
path, error or not. -/
theorem claim_C7_error_path (parse : ParseOracle) (dns : DnsOracle)
    (st : BrowserState) :
    (load_from_address parse dns st).loads
        = st.loads ++ [normalize_url st.address] ∧
    (∀ e : Str, parse (normalize_url st.address) = Except.error e →
      (load_from_address parse dns st).status = "DNS error: ".data ++ e ∧
      e <:+: (load_from_address parse dns st).status) := by
  refine ⟨load_loads_aux parse dns st, ?_⟩
  intro e hp
  have hs := load_status_error_aux parse dns st e hp
  refine ⟨hs, ?_⟩
  rw [hs]
  exact ⟨"DNS error: ".data, [], by simp⟩

/-- Witness for C7 at concrete oracles with a raising URL parser. -/
theorem claim_C7_witness :
    parseErrEx (normalize_url st0.address) = Except.error "boom".data ∧
    (load_from_address parseErrEx dnsEx st0).status
      = "DNS error: ".data ++ "boom".data ∧
    (load_from_address parseErrEx dnsEx st0).loads
      = st0.loads ++ [normalize_url st0.address] := by
  have h := claim_C7_error_path parseErrEx dnsEx st0
  exact ⟨rfl, (h.2 "boom".data rfl).1, h.1⟩

/-- Claim C8: handling a view-emitted urlChanged event sets the address
field to the event URL's string form and changes nothing else — status,
window title and the sequence of view load requests are untouched. -/
theorem claim_C8_url_changed (st : BrowserState) (q : Str) :
    (on_url_changed st q).address = q ∧
    (on_url_changed st q).status = st.status ∧
    (on_url_changed st q).title = st.title ∧
    (on_url_changed st q).loads = st.loads :=
  ⟨rfl, rfl, rfl, rfl⟩

/-- Claim C9: activating Home performs exactly the navigation sequence
of manual entry of the home URL followed by Go — it equals
`load_from_address` on the state with the address field set to the home
URL — and leaves the home URL in the address field. -/
theorem claim_C9_go_home (parse : ParseOracle) (dns : DnsOracle) (st : BrowserState) :
    go_home parse dns st
        = load_from_address parse dns { st with address := homeUrl } ∧
    (go_home parse dns st).address = homeUrl := by
  refine ⟨rfl, ?_⟩
  show (load_from_address parse dns { st with address := homeUrl }).address = homeUrl
  rw [load_address_aux]

/-- Claim C10: on construction the controller sets the address field to
the home URL `https://example.com` and immediately performs a full
navigation attempt — a DNS status update (the status starts with `DNS`)
and one view load of that URL; the home URL is https and differs from
the empty-input fallback `http://example.com` of `normalize_url`. -/
theorem claim_C10_init (parse : ParseOracle) (dns : DnsOracle) :
    (initBrowser parse dns).address = homeUrl ∧
    homeUrl = "https://example.com".data ∧
    (initBrowser parse dns).loads = [homeUrl] ∧
    "DNS".data <+: (initBrowser parse dns).status ∧
    "https://".data <+: homeUrl ∧
    homeUrl ≠ defaultUrl ∧
    normalize_url [] = defaultUrl ∧
    defaultUrl = "http://example.com".data := by
  refine ⟨?_, rfl, ?_, ?_, by decide, by decide, by decide, rfl⟩
  · show (load_from_address parse dns _).address = homeUrl
    rw [load_address_aux]
  · show (load_from_address parse dns _).loads = [homeUrl]
    rw [load_loads_aux]
    simp
    decide
  · exact load_status_dns_aux parse dns _

end PyB
